import Mathlib

/-!
# Verification of the Anne Pro lighting driver

Shallow embedding of `keyboards/anne_pro/anne_pro_lighting.c` and of the
asynchronous UART transmit ring buffer it depends on, together with proofs
of the specified properties.

Bytes are modelled as `Nat` values; `uint8_t` truncation is written as
`% 256` exactly where the C code stores into a `uint8_t`.
-/

/-! ## The transmit queue (ring buffer)

Modelled from the spec: the implementation file `uart_tx_ringbuf.c` is not
part of the sources here (only its caller `anne_pro_lighting.c` is), so the
TransmitQueue is modelled from the specification's description: a
fixed-capacity circular byte buffer with free-running `head`/`tail`
indices (slots addressed modulo the capacity), a `pending` count of
enqueued-but-not-flushed write operations, an armed-transmission length
`txlen` (`0` means the hardware is idle), and the `sink` of bytes the
hardware has transmitted. -/
structure TxQueue where
  cap : Nat
  buf : List Nat
  head : Nat
  tail : Nat
  pending : Nat
  txlen : Nat
  sink : List Nat

/-- Read `len` consecutive ring slots starting at free-running index
`start` (each slot address is taken modulo `cap`). -/
def readSlots (buf : List Nat) (cap start len : Nat) : List Nat :=
  (List.range len).map fun i => buf.getD ((start + i) % cap) 0

/-- Store the bytes of `data` into consecutive ring slots starting at
free-running index `pos`. -/
def writeSlots (buf : List Nat) (cap pos : Nat) : List Nat → List Nat
  | [] => buf
  | b :: rest => writeSlots (buf.set (pos % cap) b) cap (pos + 1) rest

/-- Number of queued, not-yet-transmitted bytes. -/
def TxQueue.occ (q : TxQueue) : Nat := q.tail - q.head

/-- Free capacity available to `write`. -/
def TxQueue.free (q : TxQueue) : Nat := q.cap - q.occ

/-- The bytes currently buffered, in queue order. -/
def TxQueue.queued (q : TxQueue) : List Nat := readSlots q.buf q.cap q.head q.occ

/-- Modelled from the spec: `write` appends `data` at the tail, advances
`tail` by its length and counts one more pending write.  The caller
guarantees free space; no internal check is made. -/
def TxQueue.write (q : TxQueue) (data : List Nat) : TxQueue :=
  { q with
    buf := writeSlots q.buf q.cap q.tail data
    tail := q.tail + data.length
    pending := q.pending + 1 }

/-- Modelled from the spec: `start_transmission` arms the hardware with the
contiguous run from `head` to `tail`, or to the end of the backing buffer
on wraparound; a no-op when the hardware is already transmitting or the
buffer is empty. -/
def TxQueue.arm (q : TxQueue) : TxQueue :=
  if q.txlen = 0 ∧ q.head < q.tail then
    { q with txlen := min (q.tail - q.head) (q.cap - q.head % q.cap) }
  else q

/-- Modelled from the spec: `finish_transmission` delivers the armed run to
the hardware sink, advances `head` past it, decrements the pending count
once, and immediately re-arms the next contiguous run when bytes remain. -/
def TxQueue.finish (q : TxQueue) : TxQueue :=
  TxQueue.arm
    { q with
      sink := q.sink ++ readSlots q.buf q.cap q.head q.txlen
      head := q.head + q.txlen
      pending := q.pending - 1
      txlen := 0 }

/-- `is_empty`: `head == tail`. -/
def TxQueue.isEmpty (q : TxQueue) : Bool := q.head == q.tail

/-- A queue built at initialization: capacity `cap`, zeroed backing
buffer, nothing queued, hardware idle. -/
def initQueue (cap : Nat) : TxQueue :=
  { cap := cap, buf := List.replicate cap 0, head := 0, tail := 0
    pending := 0, txlen := 0, sink := [] }

/-- The operations the two execution contexts perform on the queue:
producer writes, producer transmission kicks, and hardware completion
interrupts. -/
inductive TxOp where
  | write (data : List Nat)
  | start
  | finish
deriving DecidableEq

def TxOp.apply (q : TxQueue) : TxOp → TxQueue
  | .write d => q.write d
  | .start => q.arm
  | .finish => q.finish

def TxQueue.run (q : TxQueue) (ops : List TxOp) : TxQueue :=
  ops.foldl TxOp.apply q

/-- Validity of one operation in a given state: a write must fit in the
free capacity (the documented caller contract), and a completion interrupt
only fires while a transmission is armed. -/
def TxOp.validAt (q : TxQueue) : TxOp → Bool
  | .write d => decide (d.length ≤ q.free)
  | .start => true
  | .finish => decide (0 < q.txlen)

def validOps : TxQueue → List TxOp → Bool
  | _, [] => true
  | q, op :: ops => op.validAt q && validOps (TxOp.apply q op) ops

def TxOp.written : TxOp → List Nat
  | .write d => d
  | _ => []

/-- Concatenation of all byte sequences written by a sequence of
operations, in call order. -/
def writtenBytes (ops : List TxOp) : List Nat :=
  ops.foldr (fun op acc => op.written ++ acc) []

/-! ## The lighting controller state and effects (from the source) -/

/-- Externally observable effects performed by the driver: GPIO writes on
the lighting chip's power pin `C15`, thread sleeps, writes of byte
sequences into the LED UART transmit ring buffer, and transmission
start requests. -/
inductive LedEvent where
  | writePinLow
  | writePinHigh
  | sleepMs (n : Nat)
  | uartWrite (data : List Nat)
  | startTransmission
deriving DecidableEq

/-- Module state of `anne_pro_lighting.c`: the `leds_awake`,
`backlight_active` and `capslock_active` flags and the 12-byte `keystate`
packet template `{9, 10, 7, 0, ...}`. -/
structure APState where
  leds_awake : Bool
  backlight_active : Bool
  capslock_active : Bool
  keystate : List Nat
deriving DecidableEq

/-- The state after static initialization: all flags false,
`keystate = {9, 10, 7, 0}` zero-extended to 12 bytes. -/
def APState.init : APState :=
  { leds_awake := false, backlight_active := false, capslock_active := false
    keystate := [9, 10, 7, 0, 0, 0, 0, 0, 0, 0, 0, 0] }

/-- `anne_pro_lighting_on`: return immediately when already awake,
otherwise raise the power pin, sleep 50 ms, and mark the leds awake. -/
def anne_pro_lighting_on (s : APState) : APState × List LedEvent :=
  if s.leds_awake then (s, [])
  else ({ s with leds_awake := true }, [.writePinHigh, .sleepMs 50])

/-- `anne_pro_lighting_off`: lower the power pin and mark the leds
asleep. -/
def anne_pro_lighting_off (s : APState) : APState × List LedEvent :=
  ({ s with leds_awake := false }, [.writePinLow])

/-- `led_set_kb`, with the USB HID capslock bit already decoded to
`capsOn`.  Capslock on: mark active, wake the chip, enqueue
`09 02 0c 01` and kick.  Capslock off: enqueue `09 02 0c 00`, kick, mark
inactive. -/
def led_set_kb (capsOn : Bool) (s : APState) : APState × List LedEvent :=
  if capsOn then
    let r := anne_pro_lighting_on { s with capslock_active := true }
    (r.1, r.2 ++ [.uartWrite [9, 2, 12, 1], .startTransmission])
  else
    ({ s with capslock_active := false },
     [.uartWrite [9, 2, 12, 0], .startTransmission])

/-- `anne_pro_lighting_update_dynamic`, with the key event decoded to
`noevent`, `row`, `col`, `pressed` and the matrix width `matrixCols`
(`MATRIX_COLS` is configured outside this file).  When the backlight is
active, sets or clears bit `row * matrixCols + col` of the keystate
bitmap (byte `3 + position / 8`, bit `position % 8`), then enqueues the
12-byte keystate packet and kicks. -/
def anne_pro_lighting_update_dynamic (matrixCols : Nat) (noevent : Bool)
    (row col : Nat) (pressed : Bool) (s : APState) : APState × List LedEvent :=
  if noevent then (s, [])
  else if s.backlight_active then
    let position := row * matrixCols + col
    let index := position / 8
    let bit := position % 8
    let oldByte := s.keystate.getD (3 + index) 0
    let newByte :=
      if pressed then oldByte ||| (1 <<< bit)
      else oldByte &&& (255 ^^^ (1 <<< bit))
    let ks := s.keystate.set (3 + index) newByte
    ({ s with keystate := ks }, [.uartWrite ks, .startTransmission])
  else (s, [])

/-- `anne_pro_lighting_update`: kick the ring buffer when it is non-empty
(`rbEmpty` is the value `uart_tx_ringbuf_empty` returns), then sleep the
controller when it is awake with no active user. -/
def anne_pro_lighting_update (rbEmpty : Bool) (s : APState) : APState × List LedEvent :=
  let e0 : List LedEvent := if rbEmpty then [] else [.startTransmission]
  let user_active := s.backlight_active || s.capslock_active
  if s.leds_awake && !user_active then
    let r := anne_pro_lighting_off s
    (r.1, e0 ++ r.2)
  else (s, e0)

/-- `anne_pro_lighting_mode`: when awake, enqueue `09 02 01 <mode>`, kick,
and set `backlight_active` to `mode != 0`. -/
def anne_pro_lighting_mode (mode : Nat) (s : APState) : APState × List LedEvent :=
  if s.leds_awake then
    ({ s with backlight_active := mode != 0 },
     [.uartWrite [9, 2, 1, mode], .startTransmission])
  else (s, [])

/-- `anne_pro_lighting_mode_last`: when awake, enqueue `09 01 01`, kick,
and mark the backlight active. -/
def anne_pro_lighting_mode_last (s : APState) : APState × List LedEvent :=
  if s.leds_awake then
    ({ s with backlight_active := true },
     [.uartWrite [9, 1, 1], .startTransmission])
  else (s, [])

/-- `anne_pro_lighting_toggle`: wake and resume the last mode when the
backlight is inactive, otherwise set mode `0` (`APL_MODE_OFF`). -/
def anne_pro_lighting_toggle (s : APState) : APState × List LedEvent :=
  if !s.backlight_active then
    let r1 := anne_pro_lighting_on s
    let r2 := anne_pro_lighting_mode_last r1.1
    (r2.1, r1.2 ++ r2.2)
  else anne_pro_lighting_mode 0 s

/-- `anne_pro_lighting_rate_next`: when the backlight is active, enqueue
`09 04 05 00 01 00` (no transmission kick in the source). -/
def anne_pro_lighting_rate_next (s : APState) : APState × List LedEvent :=
  if s.backlight_active then (s, [.uartWrite [9, 4, 5, 0, 1, 0]]) else (s, [])

/-- `anne_pro_lighting_brightness_next`: when the backlight is active,
enqueue `09 04 05 00 00 01` (no kick in the source). -/
def anne_pro_lighting_brightness_next (s : APState) : APState × List LedEvent :=
  if s.backlight_active then (s, [.uartWrite [9, 4, 5, 0, 0, 1]]) else (s, [])

/-- `anne_pro_lighting_mode_next`: when the backlight is active, enqueue
`09 04 05 01 00 00` (no kick in the source). -/
def anne_pro_lighting_mode_next (s : APState) : APState × List LedEvent :=
  if s.backlight_active then (s, [.uartWrite [9, 4, 5, 1, 0, 0]]) else (s, [])

/-- `anne_pro_lighting_rate_brightness`: when the backlight is active,
clamp the brightness to at most 10, enqueue the 6-byte command
`09 04 02 <rate> <brightness> 00` and kick. -/
def anne_pro_lighting_rate_brightness (rate brightness : Nat) (s : APState) :
    APState × List LedEvent :=
  if s.backlight_active then
    let b := if brightness > 10 then 10 else brightness
    (s, [.uartWrite [9, 4, 2, rate, b, 0], .startTransmission])
  else (s, [])

/-- `anne_pro_lighting_set_keys`: when awake, enqueue the 5-byte header
`{9, 3 + 5*keys, 11, 202, keys}` (the length byte is stored into a
`uint8_t`, hence the `% 256`), then the `5*keys` payload bytes, and mark
the backlight active.  No transmission kick in the source. -/
def anne_pro_lighting_set_keys (keys : Nat) (payload : List Nat) (s : APState) :
    APState × List LedEvent :=
  if s.leds_awake then
    ({ s with backlight_active := true },
     [.uartWrite [9, (3 + 5 * keys) % 256, 11, 202, keys],
      .uartWrite (payload.take (5 * keys))])
  else (s, [])

/-! ## The exposed interface as a transition system -/

/-- One invocation of an exposed operation of the driver, with its decoded
inputs. -/
inductive APOp where
  | setKb (capsOn : Bool)
  | updateDynamic (matrixCols : Nat) (noevent : Bool) (row col : Nat) (pressed : Bool)
  | update (rbEmpty : Bool)
  | toggle
  | turnOn
  | turnOff
  | rateNext
  | brightnessNext
  | modeNext
  | setMode (m : Nat)
  | modeLast
  | rateBrightness (r b : Nat)
  | setKeys (n : Nat) (payload : List Nat)
deriving DecidableEq

def APOp.exec : APOp → APState → APState × List LedEvent
  | .setKb c => led_set_kb c
  | .updateDynamic mc ne r c p => anne_pro_lighting_update_dynamic mc ne r c p
  | .update rb => anne_pro_lighting_update rb
  | .toggle => anne_pro_lighting_toggle
  | .turnOn => anne_pro_lighting_on
  | .turnOff => anne_pro_lighting_off
  | .rateNext => anne_pro_lighting_rate_next
  | .brightnessNext => anne_pro_lighting_brightness_next
  | .modeNext => anne_pro_lighting_mode_next
  | .setMode m => anne_pro_lighting_mode m
  | .modeLast => anne_pro_lighting_mode_last
  | .rateBrightness r b => anne_pro_lighting_rate_brightness r b
  | .setKeys n p => anne_pro_lighting_set_keys n p

/-- Run a sequence of exposed operations, keeping only the state. -/
def runOps (s : APState) (ops : List APOp) : APState :=
  ops.foldl (fun t op => (op.exec t).1) s

/-- The byte sequences written into the transmit ring buffer by an event
trace, in order. -/
def writesOf : List LedEvent → List (List Nat)
  | [] => []
  | .uartWrite d :: rest => d :: writesOf rest
  | _ :: rest => writesOf rest

def LedEvent.isStart : LedEvent → Bool
  | .startTransmission => true
  | _ => false

/-- Every ring-buffer write in the trace is followed, later in the same
trace, by a transmission start request. -/
def eventsKicked : List LedEvent → Bool
  | [] => true
  | .uartWrite _ :: rest => rest.any LedEvent.isStart && eventsKicked rest
  | _ :: rest => eventsKicked rest

/-- Bit `p` of the 72-bit keystate bitmap carried in a keystate packet
`ks` (bitmap byte `p / 8` is `ks[3 + p / 8]`, bit `p % 8` inside it). -/
def bitAt (ks : List Nat) (p : Nat) : Bool :=
  (ks.getD (3 + p / 8) 0).testBit (p % 8)

/-! ## Ring-buffer slot lemmas -/

theorem getD_set_ne (l : List Nat) (i j v : Nat) (h : i ≠ j) :
    (l.set i v).getD j 0 = l.getD j 0 := by
  rw [List.getD_eq_getElem?_getD, List.getD_eq_getElem?_getD,
    List.getElem?_set_ne h]

theorem getD_set_self (l : List Nat) (i v : Nat) (h : i < l.length) :
    (l.set i v).getD i 0 = v := by
  rw [List.getD_eq_getElem?_getD, List.getElem?_set_self h]
  rfl

theorem writeSlots_length (cap pos : Nat) (data : List Nat) (buf : List Nat) :
    (writeSlots buf cap pos data).length = buf.length := by
  induction data generalizing buf pos with
  | nil => rfl
  | cons b rest ih =>
    rw [writeSlots, ih, List.length_set]

theorem writeSlots_getD_of_ne (cap pos : Nat) (data : List Nat) (m : Nat)
    (buf : List Nat) (h : ∀ j < data.length, (pos + j) % cap ≠ m) :
    (writeSlots buf cap pos data).getD m 0 = buf.getD m 0 := by
  induction data generalizing buf pos with
  | nil => rfl
  | cons b rest ih =>
    rw [writeSlots, ih]
    · exact getD_set_ne _ _ _ _ (by simpa using h 0 (Nat.succ_pos _))
    · intro j hj
      have := h (j + 1) (by simpa using Nat.succ_lt_succ hj)
      simpa [Nat.add_assoc, Nat.add_comm 1 j] using this

theorem mod_ne_mod_of_lt (a t cap : Nat) (h1 : 0 < t) (h2 : t < cap) :
    (a + t) % cap ≠ a % cap := by
  intro h
  have hmod : a ≡ a + t [MOD cap] := (Nat.ModEq.symm h)
  have hdvd : cap ∣ (a + t) - a := (Nat.modEq_iff_dvd' (Nat.le_add_right a t)).1 hmod
  rw [Nat.add_sub_cancel_left] at hdvd
  exact absurd (Nat.le_of_dvd h1 hdvd) (Nat.not_le.2 h2)

theorem readSlots_zero (buf : List Nat) (cap start : Nat) :
    readSlots buf cap start 0 = [] := rfl

theorem readSlots_succ (buf : List Nat) (cap start n : Nat) :
    readSlots buf cap start (n + 1) =
      buf.getD (start % cap) 0 :: readSlots buf cap (start + 1) n := by
  rw [readSlots, List.range_succ_eq_map, List.map_cons, List.map_map]
  refine congrArg₂ _ (by rw [Nat.add_zero]) ?_
  apply List.map_congr_left
  intro i _
  simp only [Function.comp]
  rw [Nat.succ_eq_add_one, Nat.add_comm i 1, ← Nat.add_assoc]

theorem readSlots_add (buf : List Nat) (cap start m n : Nat) :
    readSlots buf cap start (m + n) =
      readSlots buf cap start m ++ readSlots buf cap (start + m) n := by
  induction m generalizing start with
  | zero => rw [Nat.zero_add, readSlots_zero, List.nil_append, Nat.add_zero]
  | succ k ih =>
    have : k + 1 + n = (k + n) + 1 := by omega
    rw [this, readSlots_succ, readSlots_succ, ih, List.cons_append]
    have : start + 1 + k = start + (k + 1) := by omega
    rw [this]

theorem readSlots_congr (buf buf2 : List Nat) (cap start n : Nat)
    (h : ∀ i < n, buf.getD ((start + i) % cap) 0 = buf2.getD ((start + i) % cap) 0) :
    readSlots buf cap start n = readSlots buf2 cap start n := by
  apply List.map_congr_left
  intro i hi
  exact h i (List.mem_range.1 hi)

theorem readSlots_writeSlots_of_disjoint (cap pos : Nat) (data : List Nat)
    (start n : Nat) (buf : List Nat)
    (h : ∀ i < n, ∀ j < data.length, (pos + j) % cap ≠ (start + i) % cap) :
    readSlots (writeSlots buf cap pos data) cap start n = readSlots buf cap start n := by
  apply readSlots_congr
  intro i hi
  exact writeSlots_getD_of_ne cap pos data _ buf (fun j hj => h i hi j hj)

theorem readSlots_writeSlots (cap : Nat) (data : List Nat) (pos : Nat)
    (buf : List Nat) (hlen : buf.length = cap) (hcap : data.length ≤ cap) :
    readSlots (writeSlots buf cap pos data) cap pos data.length = data := by
  induction data generalizing buf pos with
  | nil => rfl
  | cons b rest ih =>
    have hcap' : rest.length + 1 ≤ cap := by simpa using hcap
    rw [List.length_cons, writeSlots, readSlots_succ]
    have hrest :
        readSlots (writeSlots (buf.set (pos % cap) b) cap (pos + 1) rest) cap
          (pos + 1) rest.length = rest := by
      apply ih
      · rw [List.length_set, hlen]
      · omega
    rw [hrest]
    have hhead :
        (writeSlots (buf.set (pos % cap) b) cap (pos + 1) rest).getD (pos % cap) 0 = b := by
      rw [writeSlots_getD_of_ne]
      · apply getD_set_self
        rw [hlen]
        exact Nat.mod_lt _ (by omega)
      · intro j hj
        have : pos + 1 + j = pos + (1 + j) := by omega
        rw [this]
        apply mod_ne_mod_of_lt
        · omega
        · omega
    rw [hhead]

/-! ## Queue invariant and FIFO preservation -/

/-- The well-formedness invariant of a transmit queue: the backing buffer
has the fixed capacity, the indices are ordered, the occupancy never
exceeds the capacity, and the armed run lies inside the queued range. -/
def TxInv (q : TxQueue) : Prop :=
  q.buf.length = q.cap ∧ q.head ≤ q.tail ∧ q.tail - q.head ≤ q.cap ∧
    q.txlen ≤ q.tail - q.head

theorem arm_sink (q : TxQueue) : q.arm.sink = q.sink := by
  unfold TxQueue.arm
  split <;> rfl

theorem arm_queued (q : TxQueue) : q.arm.queued = q.queued := by
  unfold TxQueue.arm TxQueue.queued TxQueue.occ
  split <;> rfl

theorem arm_inv (q : TxQueue) (h : TxInv q) : TxInv q.arm := by
  obtain ⟨h1, h2, h3, h4⟩ := h
  unfold TxQueue.arm
  split
  · exact ⟨h1, h2, h3, min_le_left _ _⟩
  · exact ⟨h1, h2, h3, h4⟩

theorem write_queued (q : TxQueue) (data : List Nat) (hinv : TxInv q)
    (hfree : data.length ≤ q.free) :
    (q.write data).queued = q.queued ++ data := by
  obtain ⟨hbuf, hht, hocc, _⟩ := hinv
  simp only [TxQueue.free, TxQueue.occ] at hfree
  simp only [TxQueue.write, TxQueue.queued, TxQueue.occ]
  have hsplit : q.tail + data.length - q.head = (q.tail - q.head) + data.length := by
    omega
  rw [hsplit, readSlots_add]
  have hta : q.head + (q.tail - q.head) = q.tail := by omega
  rw [hta]
  have hleft :
      readSlots (writeSlots q.buf q.cap q.tail data) q.cap q.head (q.tail - q.head) =
        readSlots q.buf q.cap q.head (q.tail - q.head) := by
    apply readSlots_writeSlots_of_disjoint
    intro i hi j hj
    have hrw : q.tail + j = q.head + i + ((q.tail - q.head - i) + j) := by omega
    rw [hrw]
    apply mod_ne_mod_of_lt
    · omega
    · omega
  rw [hleft, readSlots_writeSlots q.cap data q.tail q.buf hbuf (by omega)]

theorem write_inv (q : TxQueue) (data : List Nat) (hinv : TxInv q)
    (hfree : data.length ≤ q.free) : TxInv (q.write data) := by
  obtain ⟨h1, h2, h3, h4⟩ := hinv
  simp only [TxQueue.free, TxQueue.occ] at hfree
  refine ⟨?_, by simp [TxQueue.write]; omega, ?_, ?_⟩
  · simp [TxQueue.write, writeSlots_length, h1]
  · simp only [TxQueue.write]
    omega
  · simp only [TxQueue.write]
    omega

theorem finish_sink_queued (q : TxQueue) (hinv : TxInv q) :
    q.finish.sink ++ q.finish.queued = q.sink ++ q.queued := by
  obtain ⟨hbuf, hht, hocc, htx⟩ := hinv
  unfold TxQueue.finish
  rw [arm_sink, arm_queued]
  simp only [TxQueue.queued, TxQueue.occ]
  have hsplit : q.tail - q.head = q.txlen + (q.tail - (q.head + q.txlen)) := by
    omega
  conv_rhs => rw [hsplit]
  rw [readSlots_add, List.append_assoc]

theorem finish_inv (q : TxQueue) (hinv : TxInv q) : TxInv q.finish := by
  obtain ⟨h1, h2, h3, h4⟩ := hinv
  unfold TxQueue.finish
  apply arm_inv
  refine ⟨h1, ?_, ?_, ?_⟩ <;> dsimp only <;> omega

theorem step_preserves (q : TxQueue) (op : TxOp) (hinv : TxInv q)
    (hv : op.validAt q = true) :
    TxInv (TxOp.apply q op) ∧
      (TxOp.apply q op).sink ++ (TxOp.apply q op).queued =
        q.sink ++ q.queued ++ op.written := by
  cases op with
  | write d =>
    have hfree : d.length ≤ q.free := by simpa [TxOp.validAt] using hv
    refine ⟨write_inv q d hinv hfree, ?_⟩
    show (q.write d).sink ++ (q.write d).queued = _
    rw [write_queued q d hinv hfree]
    simp [TxQueue.write, TxOp.written]
  | start =>
    refine ⟨arm_inv q hinv, ?_⟩
    show q.arm.sink ++ q.arm.queued = _
    rw [arm_sink, arm_queued]
    simp [TxOp.written]
  | finish =>
    refine ⟨finish_inv q hinv, ?_⟩
    show q.finish.sink ++ q.finish.queued = _
    rw [finish_sink_queued q hinv]
    simp [TxOp.written]

theorem run_preserves (ops : List TxOp) (q : TxQueue) (hinv : TxInv q)
    (hv : validOps q ops = true) :
    TxInv (q.run ops) ∧
      (q.run ops).sink ++ (q.run ops).queued =
        q.sink ++ q.queued ++ writtenBytes ops := by
  induction ops generalizing q with
  | nil =>
    refine ⟨hinv, ?_⟩
    simp [TxQueue.run, writtenBytes]
  | cons op ops ih =>
    rw [validOps, Bool.and_eq_true] at hv
    have hstep := step_preserves q op hinv hv.1
    have hrec := ih (TxOp.apply q op) hstep.1 hv.2
    have hrun : q.run (op :: ops) = (TxOp.apply q op).run ops := rfl
    have hwb : writtenBytes (op :: ops) = op.written ++ writtenBytes ops := rfl
    rw [hrun, hwb]
    refine ⟨hrec.1, ?_⟩
    rw [hrec.2, hstep.2]
    simp [List.append_assoc]

/-- C1: for every sequence of queue operations in which each write fits in
the free capacity at the time it is made and each completion interrupt
fires only while a transmission is armed, once the queue has drained
(`head = tail`), the bytes delivered to the hardware transmit sink are
exactly the concatenation of all written byte sequences in call order. -/
theorem tx_fifo_roundtrip (cap : Nat) (ops : List TxOp)
    (hv : validOps (initQueue cap) ops = true)
    (hdrain : ((initQueue cap).run ops).head = ((initQueue cap).run ops).tail) :
    ((initQueue cap).run ops).sink = writtenBytes ops := by
  have hinv : TxInv (initQueue cap) := by
    refine ⟨?_, Nat.le_refl _, ?_, ?_⟩ <;> simp [initQueue]
  have h := (run_preserves ops (initQueue cap) hinv hv).2
  have hq : ((initQueue cap).run ops).queued = [] := by
    unfold TxQueue.queued TxQueue.occ
    rw [hdrain, Nat.sub_self]
    rfl
  have hq0 : (initQueue cap).queued = [] := by
    unfold TxQueue.queued TxQueue.occ initQueue
    rfl
  rw [hq, hq0, List.append_nil] at h
  simpa [initQueue] using h

/-- Witness for C1 at capacity 4 with a wraparound: writing `[1,2,3]`,
flushing, writing `[4,5,6]` (which wraps the backing buffer) and flushing
again delivers `[1,2,3,4,5,6]`. -/
theorem tx_fifo_roundtrip_witness :
    validOps (initQueue 4)
        [TxOp.write [1, 2, 3], TxOp.start, TxOp.finish,
         TxOp.write [4, 5, 6], TxOp.start, TxOp.finish, TxOp.finish] = true ∧
      ((initQueue 4).run
          [TxOp.write [1, 2, 3], TxOp.start, TxOp.finish,
           TxOp.write [4, 5, 6], TxOp.start, TxOp.finish, TxOp.finish]).head =
        ((initQueue 4).run
          [TxOp.write [1, 2, 3], TxOp.start, TxOp.finish,
           TxOp.write [4, 5, 6], TxOp.start, TxOp.finish, TxOp.finish]).tail ∧
      ((initQueue 4).run
          [TxOp.write [1, 2, 3], TxOp.start, TxOp.finish,
           TxOp.write [4, 5, 6], TxOp.start, TxOp.finish, TxOp.finish]).sink =
        writtenBytes
          [TxOp.write [1, 2, 3], TxOp.start, TxOp.finish,
           TxOp.write [4, 5, 6], TxOp.start, TxOp.finish, TxOp.finish] :=
  ⟨by decide, by decide, tx_fifo_roundtrip 4 _ (by decide) (by decide)⟩

/-! ## Lighting controller claims -/

/-- C2 counterexample: two asleep enqueues the claim forbids actually
happen.  From the initial (asleep) state, `led_set_kb` with capslock off
enqueues the indicator-off command and leaves the controller asleep; and
after the exposed sequence on; set_mode 5; off the controller is asleep
with the backlight flag still set, so `rate_next` enqueues as well. -/
theorem asleep_enqueue_cex :
    APState.init.leds_awake = false ∧
      writesOf (led_set_kb false APState.init).2 = [[9, 2, 12, 0]] ∧
      (led_set_kb false APState.init).1.leds_awake = false ∧
      (runOps APState.init [APOp.turnOn, APOp.setMode 5, APOp.turnOff]).leds_awake = false ∧
      writesOf (anne_pro_lighting_rate_next
          (runOps APState.init [APOp.turnOn, APOp.setMode 5, APOp.turnOff])).2 =
        [[9, 4, 5, 0, 1, 0]] := by decide

/-- C2 (amended): in any state with the controller asleep and the
backlight flag clear, every exposed operation except `led_set_kb` and
`toggle` writes nothing into the transmit ring buffer (`toggle` and the
capslock-on path only enqueue after first waking the chip, while the
capslock-off path of `led_set_kb` enqueues with the chip still asleep;
with `backlight_active` stuck true while asleep, the backlight-guarded
operations enqueue as well). -/
theorem asleep_ops_enqueue_nothing (op : APOp) (s : APState)
    (hasleep : s.leds_awake = false) (hback : s.backlight_active = false)
    (hop1 : ∀ c, op ≠ APOp.setKb c) (hop2 : op ≠ APOp.toggle) :
    writesOf (op.exec s).2 = [] := by
  cases op with
  | setKb c => exact absurd rfl (hop1 c)
  | toggle => exact absurd rfl hop2
  | updateDynamic mc ne r c p =>
    cases ne <;>
      simp [APOp.exec, anne_pro_lighting_update_dynamic, hback, writesOf]
  | update rb =>
    cases rb <;>
      simp [APOp.exec, anne_pro_lighting_update, anne_pro_lighting_off,
        hasleep, writesOf]
  | turnOn => simp [APOp.exec, anne_pro_lighting_on, hasleep, writesOf]
  | turnOff => simp [APOp.exec, anne_pro_lighting_off, writesOf]
  | rateNext => simp [APOp.exec, anne_pro_lighting_rate_next, hback, writesOf]
  | brightnessNext =>
    simp [APOp.exec, anne_pro_lighting_brightness_next, hback, writesOf]
  | modeNext => simp [APOp.exec, anne_pro_lighting_mode_next, hback, writesOf]
  | setMode m => simp [APOp.exec, anne_pro_lighting_mode, hasleep, writesOf]
  | modeLast => simp [APOp.exec, anne_pro_lighting_mode_last, hasleep, writesOf]
  | rateBrightness r b =>
    simp [APOp.exec, anne_pro_lighting_rate_brightness, hback, writesOf]
  | setKeys n p => simp [APOp.exec, anne_pro_lighting_set_keys, hasleep, writesOf]

/-- Witness for C2 (amended): `rate_next` in the initial asleep state
enqueues nothing. -/
theorem asleep_ops_enqueue_nothing_witness :
    APState.init.leds_awake = false ∧ APState.init.backlight_active = false ∧
      writesOf (APOp.rateNext.exec APState.init).2 = [] :=
  ⟨by decide, by decide,
   asleep_ops_enqueue_nothing APOp.rateNext APState.init rfl rfl
     (by decide) (by decide)⟩

/-- C3 counterexample: after the exposed sequence on; set_mode 5; off the
controller is asleep with `backlight_active` still true; `set_mode 0` in
that state enqueues nothing (as claimed) but leaves `backlight_active`
true, not false as the claim states. -/
theorem set_mode_zero_asleep_cex :
    (runOps APState.init [APOp.turnOn, APOp.setMode 5, APOp.turnOff]).leds_awake = false ∧
      writesOf (anne_pro_lighting_mode 0
          (runOps APState.init [APOp.turnOn, APOp.setMode 5, APOp.turnOff])).2 = [] ∧
      (anne_pro_lighting_mode 0
          (runOps APState.init
            [APOp.turnOn, APOp.setMode 5, APOp.turnOff])).1.backlight_active = true := by
  decide

/-- C3 (amended): `set_mode 0` while asleep enqueues nothing and leaves
the whole state, `backlight_active` included, unchanged (the flag is
forced to false only when the controller is awake). -/
theorem set_mode_zero_asleep_noop (s : APState) (h : s.leds_awake = false) :
    anne_pro_lighting_mode 0 s = (s, []) := by
  simp [anne_pro_lighting_mode, h]

/-- Witness for C3 (amended) at the initial state. -/
theorem set_mode_zero_asleep_noop_witness :
    APState.init.leds_awake = false ∧
      anne_pro_lighting_mode 0 APState.init = (APState.init, []) :=
  ⟨rfl, set_mode_zero_asleep_noop APState.init rfl⟩

/-- C5 counterexample: from the reachable backlight-active state after
on; set_mode 5, `rate_brightness 3 7` enqueues the six-byte command
`09 04 02 03 07 00`, not the five-byte `09 04 02 03 07` of the claim. -/
theorem rate_brightness_cex :
    (runOps APState.init [APOp.turnOn, APOp.setMode 5]).backlight_active = true ∧
      writesOf (anne_pro_lighting_rate_brightness 3 7
          (runOps APState.init [APOp.turnOn, APOp.setMode 5])).2 =
        [[9, 4, 2, 3, 7, 0]] ∧
      ([9, 4, 2, 3, 7, 0] : List Nat) ≠ [9, 4, 2, 3, 7] := by decide

/-- C5 (amended): with the backlight active, `rate_brightness r b`
enqueues exactly the six-byte command `09 04 02 <r> <min b 10> 00`
(brightness clamped to 0..10, with a trailing zero byte) and starts
transmission, leaving the state unchanged. -/
theorem rate_brightness_cmd (r b : Nat) (s : APState)
    (h : s.backlight_active = true) :
    anne_pro_lighting_rate_brightness r b s =
      (s, [LedEvent.uartWrite [9, 4, 2, r, min b 10, 0],
           LedEvent.startTransmission]) := by
  have hb : (if b > 10 then 10 else b) = min b 10 := by
    split <;> omega
  simp [anne_pro_lighting_rate_brightness, h, hb]

/-- Witness for C5 (amended) at rate 3, brightness 7 in a reachable
backlight-active state. -/
theorem rate_brightness_cmd_witness :
    (runOps APState.init [APOp.turnOn, APOp.setMode 5]).backlight_active = true ∧
      anne_pro_lighting_rate_brightness 3 7
          (runOps APState.init [APOp.turnOn, APOp.setMode 5]) =
        (runOps APState.init [APOp.turnOn, APOp.setMode 5],
         [LedEvent.uartWrite [9, 4, 2, 3, 7, 0], LedEvent.startTransmission]) :=
  ⟨by decide, by
    have h := rate_brightness_cmd 3 7
      (runOps APState.init [APOp.turnOn, APOp.setMode 5]) (by decide)
    simpa using h⟩

/-- C7: with the controller awake, `set_mode m` enqueues exactly
`09 02 01 <m>`, starts transmission, and sets `backlight_active` to
`m != 0`. -/
theorem mode_awake_spec (m : Nat) (s : APState) (h : s.leds_awake = true) :
    anne_pro_lighting_mode m s =
      ({ s with backlight_active := m != 0 },
       [LedEvent.uartWrite [9, 2, 1, m], LedEvent.startTransmission]) := by
  simp [anne_pro_lighting_mode, h]

/-- Witness for C7: `set_mode 5` while awake makes the queue receive
`[9, 2, 1, 5]` and the backlight become active. -/
theorem mode_awake_spec_witness :
    (runOps APState.init [APOp.turnOn]).leds_awake = true ∧
      anne_pro_lighting_mode 5 (runOps APState.init [APOp.turnOn]) =
        ({ runOps APState.init [APOp.turnOn] with backlight_active := true },
         [LedEvent.uartWrite [9, 2, 1, 5], LedEvent.startTransmission]) :=
  ⟨by decide, by
    have h := mode_awake_spec 5 (runOps APState.init [APOp.turnOn]) (by decide)
    simpa using h⟩

/-- C8: a maintenance tick with the controller awake and neither the
backlight nor the capslock indicator active deasserts the power pin and
clears `leds_awake`; with either consumer active the tick leaves
`leds_awake` unchanged. -/
theorem update_sleep_transition (rbEmpty : Bool) (s : APState) :
    (s.leds_awake = true → s.backlight_active = false → s.capslock_active = false →
      (anne_pro_lighting_update rbEmpty s).1.leds_awake = false ∧
        LedEvent.writePinLow ∈ (anne_pro_lighting_update rbEmpty s).2) ∧
      (s.backlight_active = true ∨ s.capslock_active = true →
        (anne_pro_lighting_update rbEmpty s).1.leds_awake = s.leds_awake) := by
  constructor
  · intro h1 h2 h3
    cases rbEmpty <;>
      simp [anne_pro_lighting_update, anne_pro_lighting_off, h1, h2, h3]
  · intro h
    rcases h with h | h <;> cases rbEmpty <;>
      simp [anne_pro_lighting_update, anne_pro_lighting_off, h]

/-- Witness for C8: a tick in the awake idle state sleeps the
controller; a tick with the backlight active leaves it awake. -/
theorem update_sleep_transition_witness :
    ((anne_pro_lighting_update true
        (runOps APState.init [APOp.turnOn])).1.leds_awake = false ∧
      LedEvent.writePinLow ∈
        (anne_pro_lighting_update true (runOps APState.init [APOp.turnOn])).2) ∧
      (anne_pro_lighting_update true
          (runOps APState.init [APOp.turnOn, APOp.setMode 5])).1.leds_awake =
        (runOps APState.init [APOp.turnOn, APOp.setMode 5]).leds_awake :=
  ⟨(update_sleep_transition true (runOps APState.init [APOp.turnOn])).1
      (by decide) (by decide) (by decide),
   (update_sleep_transition true
      (runOps APState.init [APOp.turnOn, APOp.setMode 5])).2
      (Or.inl (by decide))⟩

set_option maxRecDepth 8000 in
/-- C9 counterexample: with 51 keys the length byte wraps: the header
enqueued is `09 02 0b ca 33` — its length byte is `(3 + 5*51) % 256 = 2`,
not `3 + 5*51 = 258` as the claim requires. -/
theorem set_keys_cex :
    (runOps APState.init [APOp.turnOn]).leds_awake = true ∧
      writesOf (anne_pro_lighting_set_keys 51 (List.replicate 255 1)
          (runOps APState.init [APOp.turnOn])).2 =
        [[9, 2, 11, 202, 51], List.replicate 255 1] ∧
      (2 : Nat) ≠ 3 + 5 * 51 := by decide

/-- C9 (amended): with the controller awake and a payload of `5*keys`
bytes, `set_keys` enqueues the header `09 <(3+5*keys) % 256> 0b ca <keys>`
followed by the payload, and marks the backlight active; the length byte
equals `3 + 5*keys` only as a `uint8_t`, i.e. reduced modulo 256. -/
theorem set_keys_cmd (keys : Nat) (payload : List Nat) (s : APState)
    (hawake : s.leds_awake = true) (hlen : payload.length = 5 * keys) :
    anne_pro_lighting_set_keys keys payload s =
      ({ s with backlight_active := true },
       [LedEvent.uartWrite [9, (3 + 5 * keys) % 256, 11, 202, keys],
        LedEvent.uartWrite payload]) := by
  simp [anne_pro_lighting_set_keys, hawake, List.take_of_length_le hlen.le]

/-- Witness for C9 (amended) with 2 keys and a 10-byte payload. -/
theorem set_keys_cmd_witness :
    (runOps APState.init [APOp.turnOn]).leds_awake = true ∧
      ([1, 2, 3, 4, 5, 6, 7, 8, 9, 10] : List Nat).length = 5 * 2 ∧
      anne_pro_lighting_set_keys 2 [1, 2, 3, 4, 5, 6, 7, 8, 9, 10]
          (runOps APState.init [APOp.turnOn]) =
        ({ runOps APState.init [APOp.turnOn] with backlight_active := true },
         [LedEvent.uartWrite [9, 13, 11, 202, 2],
          LedEvent.uartWrite [1, 2, 3, 4, 5, 6, 7, 8, 9, 10]]) :=
  ⟨by decide, by decide, by
    have h := set_keys_cmd 2 [1, 2, 3, 4, 5, 6, 7, 8, 9, 10]
      (runOps APState.init [APOp.turnOn]) (by decide) (by decide)
    simpa using h⟩

/-- C10: `anne_pro_lighting_on` is idempotent: when already awake it
returns at once with no pin write, no delay and no state change, and
applying it twice is observationally the same as applying it once. -/
theorem lighting_on_idempotent (s : APState) :
    (s.leds_awake = true → anne_pro_lighting_on s = (s, [])) ∧
      anne_pro_lighting_on (anne_pro_lighting_on s).1 =
        ((anne_pro_lighting_on s).1, []) := by
  constructor
  · intro h
    simp [anne_pro_lighting_on, h]
  · cases hb : s.leds_awake <;> simp [anne_pro_lighting_on, hb]

/-- Witness for C10: turning on when already awake is a no-op, and the
second of two calls from the initial state does nothing. -/
theorem lighting_on_idempotent_witness :
    (runOps APState.init [APOp.turnOn]).leds_awake = true ∧
      anne_pro_lighting_on (runOps APState.init [APOp.turnOn]) =
        (runOps APState.init [APOp.turnOn], []) ∧
      anne_pro_lighting_on (anne_pro_lighting_on APState.init).1 =
        ((anne_pro_lighting_on APState.init).1, []) :=
  ⟨by decide,
   (lighting_on_idempotent (runOps APState.init [APOp.turnOn])).1 (by decide),
   (lighting_on_idempotent APState.init).2⟩

/-- C4 counterexample: `rate_next` in the reachable backlight-active
state after on; set_mode 5 enqueues its command but issues no
transmission start request in the same call. -/
theorem rate_next_no_kick_cex :
    writesOf (anne_pro_lighting_rate_next
        (runOps APState.init [APOp.turnOn, APOp.setMode 5])).2 =
      [[9, 4, 5, 0, 1, 0]] ∧
      eventsKicked (anne_pro_lighting_rate_next
          (runOps APState.init [APOp.turnOn, APOp.setMode 5])).2 = false := by
  decide

/-- C4 (amended): every exposed operation except `rate_next`,
`brightness_next`, `mode_next` and `set_keys` follows each of its ring
buffer enqueues with a transmission start request within the same call;
those four enqueue without kicking and rely on the periodic update tick
to start transmission. -/
theorem kicking_ops_kick (op : APOp) (s : APState)
    (h1 : op ≠ APOp.rateNext) (h2 : op ≠ APOp.brightnessNext)
    (h3 : op ≠ APOp.modeNext) (h4 : ∀ n p, op ≠ APOp.setKeys n p) :
    eventsKicked (op.exec s).2 = true := by
  cases op with
  | rateNext => exact absurd rfl h1
  | brightnessNext => exact absurd rfl h2
  | modeNext => exact absurd rfl h3
  | setKeys n p => exact absurd rfl (h4 n p)
  | setKb c =>
    cases c <;> cases hw : s.leds_awake <;>
      simp [APOp.exec, led_set_kb, anne_pro_lighting_on, hw, eventsKicked,
        LedEvent.isStart]
  | updateDynamic mc ne r c p =>
    cases ne <;> cases hb : s.backlight_active <;>
      simp [APOp.exec, anne_pro_lighting_update_dynamic, hb, eventsKicked,
        LedEvent.isStart]
  | update rb =>
    cases rb <;> cases hw : s.leds_awake <;> cases hb : s.backlight_active <;>
        cases hc : s.capslock_active <;>
      simp [APOp.exec, anne_pro_lighting_update, anne_pro_lighting_off,
        hw, hb, hc, eventsKicked, LedEvent.isStart]
  | toggle =>
    cases hb : s.backlight_active <;> cases hw : s.leds_awake <;>
      simp [APOp.exec, anne_pro_lighting_toggle, anne_pro_lighting_on,
        anne_pro_lighting_mode_last, anne_pro_lighting_mode, hb, hw,
        eventsKicked, LedEvent.isStart]
  | turnOn =>
    cases hw : s.leds_awake <;>
      simp [APOp.exec, anne_pro_lighting_on, hw, eventsKicked]
  | turnOff => simp [APOp.exec, anne_pro_lighting_off, eventsKicked]
  | setMode m =>
    cases hw : s.leds_awake <;>
      simp [APOp.exec, anne_pro_lighting_mode, hw, eventsKicked,
        LedEvent.isStart]
  | modeLast =>
    cases hw : s.leds_awake <;>
      simp [APOp.exec, anne_pro_lighting_mode_last, hw, eventsKicked,
        LedEvent.isStart]
  | rateBrightness r b =>
    cases hb : s.backlight_active <;>
      simp [APOp.exec, anne_pro_lighting_rate_brightness, hb, eventsKicked,
        LedEvent.isStart]

/-- Witness for C4 (amended): `set_mode 5` while awake kicks after its
enqueue. -/
theorem kicking_ops_kick_witness :
    APOp.setMode 5 ≠ APOp.rateNext ∧
      eventsKicked
        ((APOp.setMode 5).exec (runOps APState.init [APOp.turnOn])).2 = true :=
  ⟨by decide,
   kicking_ops_kick (APOp.setMode 5) (runOps APState.init [APOp.turnOn])
     (by decide) (by decide) (by decide)
     (by intro n p h; exact APOp.noConfusion h)⟩

/-- C6 counterexample: pressing the key at matrix position (0,0) (bit 0
of the bitmap) from the reachable backlight-active state enqueues the
packet `09 0a 07 01 00 ... 00`: the fourth byte is the first bitmap byte
and here equals `01`, so the packet does not have the claimed fixed form
`09 0a 07 00 <9 bytes bitmap>`. -/
theorem update_dynamic_cex :
    writesOf (anne_pro_lighting_update_dynamic 14 false 0 0 true
        (runOps APState.init [APOp.turnOn, APOp.setMode 5])).2 =
      [[9, 10, 7, 1, 0, 0, 0, 0, 0, 0, 0, 0]] ∧
      ([9, 10, 7, 1, 0, 0, 0, 0, 0, 0, 0, 0] : List Nat).take 4 ≠ [9, 10, 7, 0] := by
  decide

/-- C6 (amended): for a non-no-op key event at a matrix position below 72
with the backlight active, `update_dynamic` sets (on press) or clears (on
release) exactly bit `row * MATRIX_COLS + col` of the 72-bit keystate
bitmap, leaves every other bitmap bit and the three header bytes
`09 0a 07` unchanged, and enqueues the updated 12-byte packet (3 header
bytes followed by the 9-byte bitmap, whose first byte is the byte listed
as `00` in the spec's table) followed by a transmission kick. -/
theorem update_dynamic_spec (matrixCols row col : Nat) (pressed : Bool)
    (s : APState) (hback : s.backlight_active = true)
    (hlen : s.keystate.length = 12)
    (hpos : row * matrixCols + col < 72) :
    (anne_pro_lighting_update_dynamic matrixCols false row col pressed s).2 =
      [LedEvent.uartWrite
        (anne_pro_lighting_update_dynamic matrixCols false row col pressed s).1.keystate,
       LedEvent.startTransmission] ∧
      (anne_pro_lighting_update_dynamic matrixCols false row col pressed
          s).1.keystate.length = 12 ∧
      (anne_pro_lighting_update_dynamic matrixCols false row col pressed
          s).1.keystate.getD 0 0 = s.keystate.getD 0 0 ∧
      (anne_pro_lighting_update_dynamic matrixCols false row col pressed
          s).1.keystate.getD 1 0 = s.keystate.getD 1 0 ∧
      (anne_pro_lighting_update_dynamic matrixCols false row col pressed
          s).1.keystate.getD 2 0 = s.keystate.getD 2 0 ∧
      bitAt (anne_pro_lighting_update_dynamic matrixCols false row col pressed
          s).1.keystate (row * matrixCols + col) = pressed ∧
      ∀ q < 72, q ≠ row * matrixCols + col →
        bitAt (anne_pro_lighting_update_dynamic matrixCols false row col pressed
            s).1.keystate q = bitAt s.keystate q := by
  unfold anne_pro_lighting_update_dynamic
  simp only [Bool.false_eq_true, if_false, hback, if_true]
  set p := row * matrixCols + col with hp
  set old := s.keystate.getD (3 + p / 8) 0 with hold
  set nb := if pressed then old ||| (1 <<< (p % 8))
    else old &&& (255 ^^^ (1 <<< (p % 8))) with hnb
  have hidx : 3 + p / 8 < 12 := by omega
  have hbit8 : p % 8 < 8 := Nat.mod_lt _ (by omega)
  have hself : (s.keystate.set (3 + p / 8) nb).getD (3 + p / 8) 0 = nb :=
    getD_set_self _ _ _ (by omega)
  refine ⟨trivial, ?_, ?_, ?_, ?_, ?_, ?_⟩
  · rw [List.length_set, hlen]
  · exact getD_set_ne _ _ _ _ (by omega)
  · exact getD_set_ne _ _ _ _ (by omega)
  · exact getD_set_ne _ _ _ _ (by omega)
  · rw [bitAt, hself, hnb]
    cases pressed with
    | true =>
      rw [if_pos rfl, Nat.shiftLeft_eq, one_mul, Nat.testBit_or,
        Nat.testBit_two_pow_self, Bool.or_true]
    | false =>
      rw [if_neg (by simp), Nat.shiftLeft_eq, one_mul, Nat.testBit_and,
        Nat.testBit_xor, Nat.testBit_two_pow_self]
      have h255 : (255 : Nat).testBit (p % 8) = true := by
        rw [show (255 : Nat) = 2 ^ 8 - 1 from rfl, Nat.testBit_two_pow_sub_one]
        simpa using hbit8
      rw [h255]
      simp
  · intro q hq hne
    rw [bitAt, bitAt]
    by_cases hdiv : q / 8 = p / 8
    · have hmod : q % 8 ≠ p % 8 := by
        intro hm
        apply hne
        omega
      rw [hdiv, hself, hnb]
      have hq8 : q % 8 < 8 := Nat.mod_lt _ (by omega)
      cases pressed with
      | true =>
        rw [if_pos rfl, Nat.shiftLeft_eq, one_mul, Nat.testBit_or,
          Nat.testBit_two_pow_of_ne (fun h => hmod h.symm), Bool.or_false, hold]
      | false =>
        rw [if_neg (by simp), Nat.shiftLeft_eq, one_mul, Nat.testBit_and,
          Nat.testBit_xor, Nat.testBit_two_pow_of_ne (fun h => hmod h.symm)]
        have h255 : (255 : Nat).testBit (q % 8) = true := by
          rw [show (255 : Nat) = 2 ^ 8 - 1 from rfl, Nat.testBit_two_pow_sub_one]
          simpa using hq8
        rw [h255, hold]
        simp
    · rw [getD_set_ne _ _ _ _ (by omega)]

/-- Witness for C6 (amended): pressing the key at position (1,1) with 14
matrix columns (bit 15) sets that bit and leaves bit 3 unchanged. -/
theorem update_dynamic_spec_witness :
    (runOps APState.init [APOp.turnOn, APOp.setMode 5]).backlight_active = true ∧
      (runOps APState.init [APOp.turnOn, APOp.setMode 5]).keystate.length = 12 ∧
      1 * 14 + 1 < 72 ∧
      bitAt (anne_pro_lighting_update_dynamic 14 false 1 1 true
          (runOps APState.init [APOp.turnOn, APOp.setMode 5])).1.keystate
        (1 * 14 + 1) = true ∧
      bitAt (anne_pro_lighting_update_dynamic 14 false 1 1 true
          (runOps APState.init [APOp.turnOn, APOp.setMode 5])).1.keystate 3 =
        bitAt (runOps APState.init [APOp.turnOn, APOp.setMode 5]).keystate 3 :=
  ⟨by decide, by decide, by decide,
   (update_dynamic_spec 14 1 1 true (runOps APState.init [APOp.turnOn, APOp.setMode 5])
      (by decide) (by decide) (by decide)).2.2.2.2.2.1,
   (update_dynamic_spec 14 1 1 true (runOps APState.init [APOp.turnOn, APOp.setMode 5])
      (by decide) (by decide) (by decide)).2.2.2.2.2.2 3 (by decide) (by decide)⟩
